import Mathlib

/-!
# OEMS order execution pipeline

A shallow embedding of `order_execution.cpp` / `order_execution.h`: the response
classifier `HandleResponse`, the parameter validation, the token gate, the rate limiter,
the retry loop and the six exchange operations of `OrderExecution`.

Modelling conventions.

* `std::string` is a Lean `String`; the length `snprintf` reports is the byte length
  (`String.utf8ByteSize`), and a `%s` argument taken through `c_str()` ends at the first
  NUL character.
* A `double` is its IEEE-754 content: sign, mantissa and binary exponent, an infinity, or
  NaN.  `%.Nf` renders the exact value rounded to `N` decimals, ties to even.
* `int` arithmetic that can leave the 32-bit range is wrapped (`wrap32`).
* Everything the operations ask of the outside world (token manager, credentials, steady
  clock, HTTP transport, the undefined `ProcessHttpResponse`) is an input, collected in
  `Env`.  Effects are recorded in an event list.  Console output is not modelled; whether
  a `Utilities::Display...` call of a completion callback returns or the JSON library
  raises inside it is an input too.
* The operations use the `SendAsyncRequest` / `RetryRequest` bodies of
  `order_execution.cpp`; the bodies given in `order_execution.h` are embedded separately
  as `RetryRequest_h`.
-/

namespace OEMS

set_option maxRecDepth 100000

/-! ## Library types -/

/-- The enumeration `drogon::ReqResult`. -/
inductive ReqResult
  | Ok
  | BadResponse
  | NetworkFailure
  | BadServerAddress
  | Timeout
  | HandshakeError
  | InvalidCertificate
  | EncryptionFailure
  deriving DecidableEq, Repr

/-- The enumeration `drogon::HttpMethod`. -/
inductive HttpMethod
  | Get
  | Post
  | Head
  | Put
  | Delete
  | Options
  | Patch
  | Invalid
  deriving DecidableEq, Repr

/-- The part of a `drogon::HttpResponse` the code reads: status code and body. -/
structure HttpResponse where
  statusCode : Int
  body : String
  deriving DecidableEq, Repr

/-- The constant `drogon::k200OK`. -/
def k200OK : Int := 200

/-- A `drogon::HttpRequest` as the code builds it: method, path and the headers added. -/
structure HttpRequest where
  method : HttpMethod
  path : String
  headers : List (String × String)
  deriving DecidableEq, Repr

/-- The request made by `drogon::HttpRequest::newHttpRequest()`. -/
def HttpRequest.newHttpRequest : HttpRequest :=
  ⟨HttpMethod.Get, "", []⟩

/-- The setter `req->setPath(p)`. -/
def HttpRequest.setPath (req : HttpRequest) (p : String) : HttpRequest :=
  ⟨req.method, p, req.headers⟩

/-- The setter `req->setMethod(m)`. -/
def HttpRequest.setMethod (req : HttpRequest) (m : HttpMethod) : HttpRequest :=
  ⟨m, req.path, req.headers⟩

/-- The call `req->addHeader(name, value)`. -/
def HttpRequest.addHeader (req : HttpRequest) (name value : String) : HttpRequest :=
  ⟨req.method, req.path, req.headers ++ [(name, value)]⟩

/-! ## Numbers and text -/

/-- Two's-complement wrap of an integer into the range of a 32-bit `int`. -/
def wrap32 (x : Int) : Int :=
  (x + 2147483648) % 4294967296 - 2147483648

/-- The function `std::to_string(int)`. -/
def to_string (n : Int) : String :=
  match n with
  | Int.ofNat k => Nat.repr k
  | Int.negSucc k => "-" ++ Nat.repr (k + 1)

/-- An IEEE-754 `double`: the finite value `(-1)^neg * mant * 2^exp`, an infinity, or NaN. -/
inductive Double
  | finite (neg : Bool) (mant : Nat) (exp : Int)
  | inf (neg : Bool)
  | nan
  deriving DecidableEq, Repr

/-- The comparison `d <= 0` on doubles (false for NaN, true for both zeros). -/
def Double.leZero : Double → Bool
  | Double.finite neg mant _ => neg || mant == 0
  | Double.inf neg => neg
  | Double.nan => false

/-- The comparison `d > 0` on doubles (false for NaN). -/
def Double.gtZero : Double → Bool
  | Double.finite neg mant _ => !neg && mant != 0
  | Double.inf neg => !neg
  | Double.nan => false

/-- Quotient `num / den` rounded to the nearest integer, ties to even. -/
def roundHalfEven (num den : Nat) : Nat :=
  let q := num / den
  let r := num % den
  if den < 2 * r ∨ (2 * r = den ∧ q % 2 = 1) then q + 1 else q

/-- Decimal digits of `n`, left-padded with zeros to `width` characters. -/
def padDigits (width n : Nat) : String :=
  String.mk (List.replicate (width - (Nat.repr n).length) '0') ++ Nat.repr n

/-- The printf conversion `%.<prec>f` of a double. -/
def fmtFixed (prec : Nat) : Double → String
  | Double.nan => "nan"
  | Double.inf neg => (if neg then "-" else "") ++ "inf"
  | Double.finite neg mant exp =>
    let scaled : Nat :=
      match exp with
      | Int.ofNat e => mant * 2 ^ e * 10 ^ prec
      | Int.negSucc e => roundHalfEven (mant * 10 ^ prec) (2 ^ (e + 1))
    (if neg then "-" else "") ++ Nat.repr (scaled / 10 ^ prec)
      ++ (if prec = 0 then "" else "." ++ padDigits prec (scaled % 10 ^ prec))

/-- The characters a `%s` conversion prints for `s.c_str()`: those before the first NUL. -/
def c_str (s : String) : String :=
  String.mk (s.data.takeWhile (fun c => c != Char.ofNat 0))

/-- The value `snprintf(buffer, size, ...)` returns for a formatted text: its byte length. -/
def snprintf (formatted : String) : Int :=
  Int.ofNat formatted.utf8ByteSize

/-! ## Data model (`order_execution.h`) -/

/-- The enumeration `OrderType`. -/
inductive OrderType
  | LIMIT
  | MARKET
  | STOP_LIMIT
  | STOP_MARKET
  deriving DecidableEq, Repr

/-- The structure `OrderParams`; the field `type` is named `type_` here. -/
structure OrderParams where
  instrument_name : String
  amount : Double
  price : Double
  label : String
  type_ : OrderType
  time_in_force : String
  deriving DecidableEq, Repr

/-- The structure `ApiResponse`. -/
structure ApiResponse where
  success : Bool
  message : String
  data : String
  deriving DecidableEq, Repr

/-- The constant `OrderExecution::BUFFER_SIZE`. -/
def BUFFER_SIZE : Int := 2048

/-! ## Response classifier -/

/-- The free function `HandleResponse` of `order_execution.cpp`; a null response pointer
is `none`. -/
def HandleResponse (result : ReqResult) (response : Option HttpResponse) : ApiResponse :=
  if result ≠ ReqResult.Ok then
    ⟨false, "Network error", ""⟩
  else
    match response with
    | none => ⟨false, "Empty response", ""⟩
    | some r =>
      if r.statusCode ≠ k200OK then
        ⟨false, "HTTP error: " ++ to_string r.statusCode, r.body⟩
      else
        ⟨true, "Success", r.body⟩

/-! ## Validation -/

/-- The method `OrderExecution::ValidateOrderParams`. -/
def ValidateOrderParams (params : OrderParams) : Bool :=
  if params.amount.leZero then
    false
  else if params.type_ = OrderType.LIMIT ∧ params.price.leZero then
    false
  else
    true

/-- The method `OrderExecution::GetOrderTypeString`. -/
def GetOrderTypeString (type_ : OrderType) : String :=
  match type_ with
  | OrderType.LIMIT => "limit"
  | OrderType.MARKET => "market"
  | OrderType.STOP_LIMIT => "stop_limit"
  | OrderType.STOP_MARKET => "stop_market"

/-! ## Rate limiter -/

/-- The class `RateLimiter`: the steady-clock instant of the last request, in nanoseconds
since the clock epoch. -/
structure RateLimiter where
  lastRequest : Int
  deriving DecidableEq, Repr

/-- The member `RateLimiter::minInterval` (100 ms), in nanoseconds. -/
def minInterval : Int := 100 * 1000000

/-- The method `RateLimiter::WaitIfNeeded`.  `now` is the first reading of
`steady_clock::now()`, `after` the reading stored into `lastRequest`; the second component
is the duration handed to `sleep_for`, if the call sleeps. -/
def RateLimiter.WaitIfNeeded (rl : RateLimiter) (now after : Int) : RateLimiter × Option Int :=
  let elapsed := now - rl.lastRequest
  let slept := if elapsed < minInterval then some (minInterval - elapsed) else none
  (⟨after⟩, slept)

/-- What a monotonic steady clock does during one `WaitIfNeeded`: the second reading is
not before the first, and not before the end of the requested sleep when the call sleeps. -/
def clockOk (rl : RateLimiter) (now after : Int) : Prop :=
  now + ((rl.WaitIfNeeded now after).2.getD 0) ≤ after ∧ now ≤ after

instance (rl : RateLimiter) (now after : Int) : Decidable (clockOk rl now after) := by
  unfold clockOk
  infer_instance

/-! ## Retry loop -/

/-- What `RetryRequest` does, in order: a call of the attempt function, or a `sleep_for`
of the given number of milliseconds. -/
inductive RetryEvent
  | attempt
  | sleep (ms : Int)
  deriving DecidableEq, Repr

/-- Outcome of `RetryRequest`: the value returned (`none` when the attempt function threw),
the calls and sleeps made, and the final state of what the attempt function captured. -/
structure RetryResult (σ : Type) where
  result : Option Bool
  trace : List RetryEvent
  state : σ

/-- Number of times the attempt function was invoked. -/
def RetryResult.calls {σ : Type} (r : RetryResult σ) : Nat :=
  r.trace.count RetryEvent.attempt

/-- The sleep durations, in order. -/
def RetryResult.sleeps {σ : Type} (r : RetryResult σ) : List Int :=
  r.trace.filterMap (fun e => match e with
    | RetryEvent.sleep ms => some ms
    | RetryEvent.attempt => none)

/-- The loop of `OrderExecution::RetryRequest` in `order_execution.cpp`, with `remaining`
iterations left before `i < maxRetries` fails.  The attempt function is a state
transformer; `none` is an exception leaving it. -/
def RetryRequest.loop {σ : Type} (func : σ → Option (Bool × σ)) :
    (remaining : Nat) → (i : Int) → σ → RetryResult σ
  | 0, _, s => ⟨some false, [], s⟩
  | remaining + 1, i, s =>
    match func s with
    | none => ⟨none, [RetryEvent.attempt], s⟩
    | some (true, s1) => ⟨some true, [RetryEvent.attempt], s1⟩
    | some (false, s1) =>
      let r := RetryRequest.loop func remaining (i + 1) s1
      ⟨r.result, RetryEvent.attempt :: RetryEvent.sleep (wrap32 (100 * (i + 1))) :: r.trace,
        r.state⟩

/-- The template `OrderExecution::RetryRequest` of `order_execution.cpp`:
`for (int i = 0; i < maxRetries; i++) { if (func()) return true; sleep(100 * (i + 1)); }`. -/
def RetryRequest {σ : Type} (func : σ → Option (Bool × σ)) (maxRetries : Int) (s : σ) :
    RetryResult σ :=
  RetryRequest.loop func maxRetries.toNat 0 s

/-- The loop of `OrderExecution::RetryRequest` in `order_execution.h`, with `remaining`
iterations left before `attempts < maxRetries` fails. -/
def RetryRequest_h.loop {σ : Type} (func : σ → Option (Bool × σ)) (maxRetries : Int) :
    (remaining : Nat) → (attempts : Int) → σ → RetryResult σ
  | 0, _, s => ⟨some false, [], s⟩
  | remaining + 1, attempts, s =>
    match func s with
    | none => ⟨none, [RetryEvent.attempt], s⟩
    | some (true, s1) => ⟨some true, [RetryEvent.attempt], s1⟩
    | some (false, s1) =>
      let r := RetryRequest_h.loop func maxRetries remaining (attempts + 1) s1
      let pause :=
        if attempts + 1 < maxRetries then
          [RetryEvent.sleep (wrap32 (100 * wrap32 (2 ^ (attempts + 1).toNat)))]
        else []
      ⟨r.result, RetryEvent.attempt :: (pause ++ r.trace), r.state⟩

/-- The template `OrderExecution::RetryRequest` of `order_execution.h`:
`while (attempts < maxRetries) { if (func()) return true; ++attempts;
if (attempts < maxRetries) sleep(100 * (1 << attempts)); }`. -/
def RetryRequest_h {σ : Type} (func : σ → Option (Bool × σ)) (maxRetries : Int) (s : σ) :
    RetryResult σ :=
  RetryRequest_h.loop func maxRetries maxRetries.toNat 0 s

/-- The default argument `maxRetries = 3`. -/
def defaultMaxRetries : Int := 3

/-! ## The outside world of one operation -/

/-- What the transport does with one submitted request: the completion callback does not
run before the operation returns, or it runs before that with `(result, response)` after
`atWait` waits have timed out: during the wait with index `atWait` (counting from 0) or the
sleep before it, and, when every wait of the budget has timed out, during the sleep that
follows the last wait. -/
inductive Reply
  | never
  | fires (atWait : Nat) (result : ReqResult) (response : Option HttpResponse)
  deriving DecidableEq, Repr

/-- The collaborators of `OrderExecution` during one operation, each named after the
member it answers for: the `TokenManager` (`token_manager.h` is not among the sources),
the `ApiCredentials` getters, the rate limiter state and the two steady-clock readings of
`WaitIfNeeded`, the transport behind `m_client->sendRequest`, `ProcessHttpResponse`,
which the header declares and no source file defines, and for each `Utilities::Display...`
function whether its call on a text returns (`true`) or the JSON library raises inside it
(`false`), as it does on a value that is not of the type an accessor asks for. -/
structure Env where
  IsAccessTokenExpired : Bool
  RefreshAccessToken : String → String → Bool
  GetAccessToken : String
  GetApiKey : String
  GetApiSecret : String
  m_rate_limiter : RateLimiter
  now : Int
  after : Int
  sendRequest : HttpRequest → Reply
  ProcessHttpResponse : ReqResult → Option HttpResponse → ApiResponse
  DisplayJsonResponse : String → Bool
  DisplayOrderBookJson : String → Bool
  DisplayCurrentPositionsJson : String → Bool

/-- The effects of an operation on its collaborators, in program order. -/
inductive Event
  | IsAccessTokenExpired
  | RefreshAccessToken (key secret : String)
  | GetAccessToken
  | limiterSleep (ns : Int)
  | sendRequest (req : HttpRequest)
  | wait_for
  | sleep_for (ms : Int)
  deriving DecidableEq, Repr

/-- How a call ends: it returns a `bool`, or `wait_for` is called on a future whose shared
state an earlier `get()` consumed.  The standard leaves that call undefined; libstdc++ and
the MSVC library throw `std::future_error` (`no_state`), which nothing in the operation
catches. -/
inductive Ret
  | returned (b : Bool)
  | future_error
  deriving DecidableEq, Repr

/-- Result of one operation: how it ended, the caller's `response` string afterwards,
the effects, and the rate limiter afterwards. -/
structure OpResult where
  ret : Ret
  response : String
  events : List Event
  m_rate_limiter : RateLimiter
  deriving DecidableEq, Repr

/-- The requests among a list of effects, in order. -/
def requestsOf (events : List Event) : List HttpRequest :=
  events.filterMap (fun e => match e with
    | Event.sendRequest req => some req
    | _ => none)

/-- The requests handed to `m_client->sendRequest`, in order. -/
def OpResult.requests (r : OpResult) : List HttpRequest :=
  requestsOf r.events

/-- The calls of `RefreshAccessToken` made, as `(key, secret)` pairs. -/
def OpResult.refreshes (r : OpResult) : List (String × String) :=
  r.events.filterMap (fun e => match e with
    | Event.RefreshAccessToken k s => some (k, s)
    | _ => none)

/-! ## Token gate and dispatch -/

/-- The method `OrderExecution::RefreshTokenIfNeeded`. -/
def RefreshTokenIfNeeded (env : Env) : Bool × List Event :=
  if env.IsAccessTokenExpired then
    if !env.RefreshAccessToken env.GetApiKey env.GetApiSecret then
      (false, [Event.IsAccessTokenExpired, Event.RefreshAccessToken env.GetApiKey env.GetApiSecret])
    else
      (true, [Event.IsAccessTokenExpired, Event.RefreshAccessToken env.GetApiKey env.GetApiSecret])
  else
    (true, [Event.IsAccessTokenExpired])

/-- The template `OrderExecution::SendAsyncRequest` of `order_execution.cpp`:
`m_rate_limiter->WaitIfNeeded(); m_client->sendRequest(req, callback);`. -/
def SendAsyncRequest (env : Env) (req : HttpRequest) : RateLimiter × List Event :=
  let w := env.m_rate_limiter.WaitIfNeeded env.now env.after
  (w.1, w.2.toList.map Event.limiterSleep ++ [Event.sendRequest req])

/-- The completion lambda shared by the operations: classify; on success store the data
in `response`, call the display function on it and then fulfil the promise with `true`;
otherwise store the failure text and fulfil the promise with `false`.  First component:
the value the promise gets, `none` when the display call raises, so that `set_value` is
never reached (what the exception then does in the transport's thread is outside this
embedding); second component: the text stored in `response`. -/
def onComplete (classify : ReqResult → Option HttpResponse → ApiResponse)
    (failText : String → String) (display : String → Bool) (result : ReqResult)
    (http_response : Option HttpResponse) : Option Bool × String :=
  let apiResponse := classify result http_response
  if apiResponse.success then
    (if display apiResponse.data then some true else none, apiResponse.data)
  else (some false, failText apiResponse.message)

/-- What the attempt lambda captures: whether `future` still has its shared state, how
many waits have timed out, and the caller's `response` string. -/
structure Pending where
  valid : Bool
  waited : Nat
  response : String
  deriving DecidableEq, Repr

/-- The attempt lambda
`future.wait_for(seconds(5)) == future_status::ready && future.get()`.  Once the callback
has run, `response` holds what it stored; a wait that finds the promise fulfilled reads
the value and consumes the shared state; a wait on a promise that is not fulfilled (the
callback has not run yet, or it raised before `set_value`) times out; `none` is a wait on
a consumed future. -/
def awaitFuture (reply : Reply)
    (callback : ReqResult → Option HttpResponse → Option Bool × String)
    (s : Pending) : Option (Bool × Pending) :=
  if !s.valid then none
  else
    match reply with
    | Reply.never => some (false, ⟨true, s.waited + 1, s.response⟩)
    | Reply.fires atWait result response =>
      if atWait ≤ s.waited then
        match (callback result response).1 with
        | some value => some (value, ⟨false, s.waited, (callback result response).2⟩)
        | none => some (false, ⟨true, s.waited + 1, (callback result response).2⟩)
      else
        some (false, ⟨true, s.waited + 1, s.response⟩)

/-- The sleep `RetryRequest` makes after the last failed attempt of the budget: a callback
that has not run by then runs during it and stores its text in `response`. -/
def afterLastSleep (reply : Reply)
    (callback : ReqResult → Option HttpResponse → Option Bool × String)
    (s : Pending) : Pending :=
  match reply with
  | Reply.never => s
  | Reply.fires _ result response =>
    if s.valid then ⟨s.valid, s.waited, (callback result response).2⟩ else s

/-- A retry-loop step as an operation effect. -/
def RetryEvent.toEvent : RetryEvent → Event
  | RetryEvent.attempt => Event.wait_for
  | RetryEvent.sleep ms => Event.sleep_for ms

/-- The tail every operation ends with: create the promise and its future, call
`SendAsyncRequest(req, callback)`, and return `RetryRequest` of the attempt lambda.  When
`RetryRequest` returns false it has slept after its last attempt, and the caller's
`response` is what it holds after that sleep. -/
def sendAndAwait (env : Env) (req : HttpRequest)
    (callback : ReqResult → Option HttpResponse → Option Bool × String)
    (events : List Event) (response : String) : OpResult :=
  let sent := SendAsyncRequest env req
  let r := RetryRequest (awaitFuture (env.sendRequest req) callback) defaultMaxRetries
    ⟨true, 0, response⟩
  let final :=
    if r.result = some false then afterLastSleep (env.sendRequest req) callback r.state
    else r.state
  ⟨match r.result with
    | some b => Ret.returned b
    | none => Ret.future_error,
   final.response, events ++ sent.2 ++ r.trace.map RetryEvent.toEvent, sent.1⟩

/-! ## The operations of `OrderExecution` -/

/-- The statement `return false;` before anything was sent. -/
def returnFalse (env : Env) (events : List Event) (response : String) : OpResult :=
  ⟨Ret.returned false, response, events, env.m_rate_limiter⟩

/-- The text `snprintf` formats in `PlaceOrder`, per order type; `none` is the branch
"Unsupported order type". -/
def placeOrderText (basePath : String) (params : OrderParams) : Option String :=
  if params.type_ = OrderType.LIMIT then
    some (c_str basePath ++ "?amount=" ++ fmtFixed 6 params.amount
      ++ "&instrument_name=" ++ c_str params.instrument_name
      ++ "&label=" ++ c_str params.label
      ++ "&price=" ++ fmtFixed 2 params.price
      ++ "&type=" ++ c_str (GetOrderTypeString params.type_))
  else if params.type_ = OrderType.MARKET then
    some (c_str basePath ++ "?amount=" ++ fmtFixed 6 params.amount
      ++ "&instrument_name=" ++ c_str params.instrument_name
      ++ "&label=" ++ c_str params.label
      ++ "&type=" ++ c_str (GetOrderTypeString params.type_))
  else
    none

/-- The method `OrderExecution::PlaceOrder`. -/
def PlaceOrder (env : Env) (params : OrderParams) (side : String) (response : String) :
    OpResult :=
  if !ValidateOrderParams params then returnFalse env [] response
  else
    let gate := RefreshTokenIfNeeded env
    if !gate.1 then returnFalse env gate.2 response
    else
      let access_token := env.GetAccessToken
      let events := gate.2 ++ [Event.GetAccessToken]
      let req := HttpRequest.newHttpRequest
      let req := req.setPath
        (if side = "buy" then "/api/v2/private/buy" else "/api/v2/private/sell")
      let req := req.setMethod HttpMethod.Get
      match placeOrderText req.path params with
      | none => returnFalse env events response
      | some text =>
        let written := snprintf text
        if written < 0 ∨ written ≥ BUFFER_SIZE then returnFalse env events response
        else
          let req := req.setPath text
          let req := req.addHeader "Authorization" ("Bearer " ++ access_token)
          let req := req.addHeader "Content-Type" "application/x-www-form-urlencoded"
          sendAndAwait env req (onComplete HandleResponse id env.DisplayJsonResponse) events response

/-- The method `OrderExecution::CancelOrder`. -/
def CancelOrder (env : Env) (order_id : String) (response : String) : OpResult :=
  let gate := RefreshTokenIfNeeded env
  if !gate.1 then returnFalse env gate.2 response
  else
    let req := HttpRequest.newHttpRequest
    let req := req.setMethod HttpMethod.Get
    let text := "/api/v2/private/cancel?order_id=" ++ c_str order_id
    let written := snprintf text
    if written < 0 ∨ written ≥ BUFFER_SIZE then returnFalse env gate.2 response
    else
      let req := req.setPath text
      let req := req.addHeader "Authorization" ("Bearer " ++ env.GetAccessToken)
      let req := req.addHeader "Content-Type" "application/json"
      sendAndAwait env req (onComplete HandleResponse id env.DisplayJsonResponse)
        (gate.2 ++ [Event.GetAccessToken]) response

/-- The method `OrderExecution::ModifyOrder`. -/
def ModifyOrder (env : Env) (order_id : String) (new_amount new_price : Double)
    (response : String) : OpResult :=
  let gate := RefreshTokenIfNeeded env
  if !gate.1 ∨ new_amount.leZero ∨ new_price.leZero then returnFalse env gate.2 response
  else
    let req := HttpRequest.newHttpRequest
    let req := req.setMethod HttpMethod.Get
    let text := "/api/v2/private/edit?order_id=" ++ c_str order_id
      ++ "&amount=" ++ fmtFixed 6 new_amount ++ "&price=" ++ fmtFixed 2 new_price
    let written := snprintf text
    if written < 0 ∨ written ≥ BUFFER_SIZE then returnFalse env gate.2 response
    else
      let req := req.setPath text
      let req := req.addHeader "Authorization" ("Bearer " ++ env.GetAccessToken)
      let req := req.addHeader "Content-Type" "application/json"
      sendAndAwait env req (onComplete HandleResponse id env.DisplayJsonResponse)
        (gate.2 ++ [Event.GetAccessToken]) response

/-- The method `OrderExecution::GetOrderBook`. -/
def GetOrderBook (env : Env) (instrument_name : String) (response : String) : OpResult :=
  if instrument_name.isEmpty then returnFalse env [] response
  else
    let req := HttpRequest.newHttpRequest
    let req := req.setMethod HttpMethod.Get
    let req := req.setPath ("/api/v2/public/get_order_book?instrument_name=" ++ instrument_name)
    sendAndAwait env req (onComplete HandleResponse id env.DisplayOrderBookJson) [] response

/-- The method `OrderExecution::GetCurrentPositions`. -/
def GetCurrentPositions (env : Env) (currency kind : String) (response : String) :
    OpResult :=
  let gate := RefreshTokenIfNeeded env
  if !gate.1 ∨ currency.isEmpty then returnFalse env gate.2 response
  else
    let req := HttpRequest.newHttpRequest
    let req := req.setMethod HttpMethod.Get
    let path := "/api/v2/private/get_positions?currency=" ++ currency
    let path := if !kind.isEmpty then path ++ ("&kind=" ++ kind) else path
    let req := req.setPath path
    let req := req.addHeader "Authorization" ("Bearer " ++ env.GetAccessToken)
    let req := req.addHeader "Content-Type" "application/json"
    sendAndAwait env req (onComplete HandleResponse id env.DisplayCurrentPositionsJson)
      (gate.2 ++ [Event.GetAccessToken]) response

/-- The method `OrderExecution::GetOpenOrders`. -/
def GetOpenOrders (env : Env) (response : String) : OpResult :=
  let gate := RefreshTokenIfNeeded env
  if !gate.1 then returnFalse env gate.2 response
  else
    let req := HttpRequest.newHttpRequest
    let req := req.setMethod HttpMethod.Get
    let req := req.setPath "/api/v2/private/get_open_orders"
    let req := req.addHeader "Authorization" ("Bearer " ++ env.GetAccessToken)
    let req := req.addHeader "Content-Type" "application/json"
    sendAndAwait env req
      (onComplete env.ProcessHttpResponse (fun m => "Failed to get open orders: " ++ m)
        env.DisplayJsonResponse)
      (gate.2 ++ [Event.GetAccessToken]) response

/-! ## Concrete inputs -/

/-- A display function whose call returns on every text. -/
def displayReturns (_text : String) : Bool := true

/-- A world with a fresh token and a transport that answers every request with HTTP 200
and body "ok" before the first wait ends; the limiter was last used at the clock epoch. -/
def sampleEnv : Env :=
  ⟨false, fun _ _ => true, "tok", "key", "secret", ⟨0⟩, 1000000000, 1000000000,
    fun _ => Reply.fires 0 ReqResult.Ok (some ⟨200, "ok"⟩), HandleResponse,
    displayReturns, displayReturns, displayReturns⟩

/-- The world of `sampleEnv` with an expired token whose refresh fails. -/
def staleEnv : Env :=
  ⟨true, fun _ _ => false, "tok", "key", "secret", ⟨0⟩, 1000000000, 1000000000,
    fun _ => Reply.fires 0 ReqResult.Ok (some ⟨200, "ok"⟩), HandleResponse,
    displayReturns, displayReturns, displayReturns⟩

/-- The world of `sampleEnv` with a transport whose callback never runs. -/
def silentEnv : Env :=
  ⟨false, fun _ _ => true, "tok", "key", "secret", ⟨0⟩, 1000000000, 1000000000,
    fun _ => Reply.never, HandleResponse,
    displayReturns, displayReturns, displayReturns⟩

/-- The double 1.0. -/
def one : Double := Double.finite false 1 0

/-- The double 3000.0. -/
def threeThousand : Double := Double.finite false 3000 0

/-- The double 0.0. -/
def zero : Double := Double.finite false 0 0

/-- A LIMIT order for 1.0 ETH-PERPETUAL at 3000.00. -/
def sampleOrder : OrderParams :=
  ⟨"ETH-PERPETUAL", one, threeThousand, "market1700000000", OrderType.LIMIT,
    "good_til_cancelled"⟩

/-- The order `sampleOrder` with amount 0. -/
def zeroAmountOrder : OrderParams :=
  ⟨"ETH-PERPETUAL", zero, threeThousand, "market1700000000", OrderType.MARKET,
    "good_til_cancelled"⟩

/-- The order `sampleOrder` with price 0. -/
def zeroPriceOrder : OrderParams :=
  ⟨"ETH-PERPETUAL", one, zero, "market1700000000", OrderType.LIMIT, "good_til_cancelled"⟩

/-- An attempt function over a call counter: fails on its first two calls, succeeds from
the third on. -/
def thirdTimeLucky (k : Nat) : Option (Bool × Nat) :=
  some (decide (2 ≤ k), k + 1)

/-- An attempt function over a call counter that fails on every call. -/
def neverLucky (k : Nat) : Option (Bool × Nat) :=
  some (false, k + 1)

/-- The body of an exchange rejection delivered under HTTP 200. -/
def rejectionBody : String :=
  "\x7b\"error\":\x7b\"message\":\"insufficient funds\",\"code\":10009\x7d\x7d"

/-- The order `sampleOrder` for an instrument whose name is 2048 letters long. -/
def longOrder : OrderParams :=
  ⟨String.mk (List.replicate 2048 (Char.ofNat 65)), one, threeThousand, "m1", OrderType.LIMIT,
    "good_til_cancelled"⟩

/-! ## What the specification says of the LIMIT buy path -/

/-- The text of `%s?amount=%.6f&instrument_name=%s&label=%s&price=%.2f&type=%s` for a
buy: instrument and label go in as the C strings they are. -/
def limitBuyPath (params : OrderParams) : String :=
  "/api/v2/private/buy?amount=" ++ fmtFixed 6 params.amount
    ++ "&instrument_name=" ++ c_str params.instrument_name
    ++ "&label=" ++ c_str params.label
    ++ "&price=" ++ fmtFixed 2 params.price ++ "&type=limit"

/-- The request `PlaceOrder` builds for a LIMIT buy under access token `token`. -/
def limitBuyRequest (token : String) (params : OrderParams) : HttpRequest :=
  ⟨HttpMethod.Get, limitBuyPath params,
    [("Authorization", "Bearer " ++ token),
      ("Content-Type", "application/x-www-form-urlencoded")]⟩

/-- The path `PlaceOrder` sets before formatting:
`side == "buy" ? "/api/v2/private/buy" : "/api/v2/private/sell"`. -/
def placeOrderBase (side : String) : String :=
  if side = "buy" then "/api/v2/private/buy" else "/api/v2/private/sell"

/-- The text `snprintf` formats in `CancelOrder`. -/
def cancelOrderText (order_id : String) : String :=
  "/api/v2/private/cancel?order_id=" ++ c_str order_id

/-- The text `snprintf` formats in `ModifyOrder`. -/
def modifyOrderText (order_id : String) (new_amount new_price : Double) : String :=
  "/api/v2/private/edit?order_id=" ++ c_str order_id
    ++ "&amount=" ++ fmtFixed 6 new_amount ++ "&price=" ++ fmtFixed 2 new_price

/-- The query of a path has a price parameter after its first parameter: the text
`&price=` occurs in it. -/
def hasPriceParam (path : String) : Prop :=
  List.IsInfix "&price=".data path.data

instance (path : String) : Decidable (hasPriceParam path) := by
  unfold hasPriceParam
  infer_instance

/-- The text holds no ampersand. -/
def noAmpersand (s : String) : Prop :=
  '&' ∉ s.data

instance (s : String) : Decidable (noAmpersand s) := by
  unfold noAmpersand
  infer_instance

/-- The world of `sampleEnv` with a transport whose callback reports a network failure
(`ReqResult::NetworkFailure`, null response) before the first wait ends. -/
def networkErrorEnv : Env :=
  ⟨false, fun _ _ => true, "tok", "key", "secret", ⟨0⟩, 1000000000, 1000000000,
    fun _ => Reply.fires 0 ReqResult.NetworkFailure none, HandleResponse,
    displayReturns, displayReturns, displayReturns⟩

/-- The world of `sampleEnv` with an expired token whose refresh succeeds. -/
def refreshedEnv : Env :=
  ⟨true, fun _ _ => true, "tok", "key", "secret", ⟨0⟩, 1000000000, 1000000000,
    fun _ => Reply.fires 0 ReqResult.Ok (some ⟨200, "ok"⟩), HandleResponse,
    displayReturns, displayReturns, displayReturns⟩

/-- A MARKET order for 1.0 ETH-PERPETUAL. -/
def marketOrder : OrderParams :=
  ⟨"ETH-PERPETUAL", one, zero, "market1700000000", OrderType.MARKET, "good_til_cancelled"⟩

/-- The order `marketOrder` with a label that reads like a further query parameter. -/
def injectedMarketOrder : OrderParams :=
  ⟨"ETH-PERPETUAL", one, zero, "x&price=1", OrderType.MARKET, "good_til_cancelled"⟩

/-- A STOP_LIMIT order for 1.0 ETH-PERPETUAL at 3000.00. -/
def stopLimitOrder : OrderParams :=
  ⟨"ETH-PERPETUAL", one, threeThousand, "market1700000000", OrderType.STOP_LIMIT,
    "good_til_cancelled"⟩

/-! ## Validation and token gate -/

theorem returnFalse_requests_of_gate (env : Env) (response : String) :
    (returnFalse env (RefreshTokenIfNeeded env).2 response).requests = [] := by
  unfold RefreshTokenIfNeeded returnFalse OpResult.requests requestsOf
  split
  · split <;> rfl
  · rfl

theorem gate_fails (env : Env) (hExpired : env.IsAccessTokenExpired = true)
    (hRefresh : env.RefreshAccessToken env.GetApiKey env.GetApiSecret = false) :
    (RefreshTokenIfNeeded env).1 = false := by
  simp [RefreshTokenIfNeeded, hExpired, hRefresh]

/-- C1: for every order whose amount is `<= 0`, whatever the order type, the side and the
token state, `PlaceOrder` returns false and hands no request to the transport. -/
theorem PlaceOrder_rejects_nonpositive_amount (env : Env) (params : OrderParams)
    (side response : String) (hAmount : params.amount.leZero = true) :
    (PlaceOrder env params side response).ret = Ret.returned false
      ∧ (PlaceOrder env params side response).requests = [] := by
  have hv : ValidateOrderParams params = false := by simp [ValidateOrderParams, hAmount]
  simp [PlaceOrder, hv, returnFalse, OpResult.requests, requestsOf]

theorem PlaceOrder_rejects_nonpositive_amount_witness :
    zeroAmountOrder.amount.leZero = true
      ∧ (PlaceOrder sampleEnv zeroAmountOrder "buy" "").ret = Ret.returned false
      ∧ (PlaceOrder sampleEnv zeroAmountOrder "buy" "").requests = [] :=
  ⟨by decide, PlaceOrder_rejects_nonpositive_amount sampleEnv zeroAmountOrder "buy" "" (by decide)⟩

/-- C2: for every LIMIT order whose price is `<= 0`, `ValidateOrderParams` returns false,
and `PlaceOrder` returns false without handing a request to the transport. -/
theorem PlaceOrder_rejects_nonpositive_limit_price (env : Env) (params : OrderParams)
    (side response : String) (hType : params.type_ = OrderType.LIMIT)
    (hPrice : params.price.leZero = true) :
    ValidateOrderParams params = false
      ∧ (PlaceOrder env params side response).ret = Ret.returned false
      ∧ (PlaceOrder env params side response).requests = [] := by
  have hv : ValidateOrderParams params = false := by
    simp [ValidateOrderParams, hType, hPrice]
  simp [PlaceOrder, hv, returnFalse, OpResult.requests, requestsOf]

theorem PlaceOrder_rejects_nonpositive_limit_price_witness :
    zeroPriceOrder.type_ = OrderType.LIMIT ∧ zeroPriceOrder.price.leZero = true
      ∧ ValidateOrderParams zeroPriceOrder = false
      ∧ (PlaceOrder sampleEnv zeroPriceOrder "sell" "").ret = Ret.returned false
      ∧ (PlaceOrder sampleEnv zeroPriceOrder "sell" "").requests = [] :=
  ⟨by decide, by decide,
    PlaceOrder_rejects_nonpositive_limit_price sampleEnv zeroPriceOrder "sell" ""
      (by decide) (by decide)⟩

/-- C3: when the token manager reports the access token expired and `RefreshAccessToken`
returns false, each private operation (`PlaceOrder`, `CancelOrder`, `ModifyOrder`,
`GetCurrentPositions`, `GetOpenOrders`) returns false on every input and hands no request
to the transport. -/
theorem private_operations_stop_on_failed_refresh (env : Env)
    (hExpired : env.IsAccessTokenExpired = true)
    (hRefresh : env.RefreshAccessToken env.GetApiKey env.GetApiSecret = false) :
    (∀ params side response,
        (PlaceOrder env params side response).ret = Ret.returned false
          ∧ (PlaceOrder env params side response).requests = [])
      ∧ (∀ order_id response,
        (CancelOrder env order_id response).ret = Ret.returned false
          ∧ (CancelOrder env order_id response).requests = [])
      ∧ (∀ order_id new_amount new_price response,
        (ModifyOrder env order_id new_amount new_price response).ret = Ret.returned false
          ∧ (ModifyOrder env order_id new_amount new_price response).requests = [])
      ∧ (∀ currency kind response,
        (GetCurrentPositions env currency kind response).ret = Ret.returned false
          ∧ (GetCurrentPositions env currency kind response).requests = [])
      ∧ (∀ response,
        (GetOpenOrders env response).ret = Ret.returned false
          ∧ (GetOpenOrders env response).requests = []) := by
  have hg := gate_fails env hExpired hRefresh
  have hq := returnFalse_requests_of_gate env
  refine ⟨?_, ?_, ?_, ?_, ?_⟩
  · intro params side response
    unfold PlaceOrder
    by_cases hv : ValidateOrderParams params = true
    · simp only [hv, hg]
      exact ⟨rfl, hq response⟩
    · simp only [Bool.not_eq_true] at hv
      simp only [hv]
      exact ⟨rfl, rfl⟩
  · intro order_id response
    unfold CancelOrder
    simp only [hg]
    exact ⟨rfl, hq response⟩
  · intro order_id new_amount new_price response
    unfold ModifyOrder
    simp only [hg]
    exact ⟨rfl, hq response⟩
  · intro currency kind response
    unfold GetCurrentPositions
    simp only [hg]
    exact ⟨rfl, hq response⟩
  · intro response
    unfold GetOpenOrders
    simp only [hg]
    exact ⟨rfl, hq response⟩

theorem private_operations_stop_on_failed_refresh_witness :
    staleEnv.IsAccessTokenExpired = true
      ∧ staleEnv.RefreshAccessToken staleEnv.GetApiKey staleEnv.GetApiSecret = false
      ∧ (CancelOrder staleEnv "ETH-4242" "").ret = Ret.returned false
      ∧ (CancelOrder staleEnv "ETH-4242" "").requests = [] :=
  ⟨by decide, by decide,
    (private_operations_stop_on_failed_refresh staleEnv (by decide) (by decide)).2.1
      "ETH-4242" ""⟩

/-! ## Response classifier -/

/-- C4: at HTTP 200 with the body of an exchange rejection, `HandleResponse` reports
success with message "Success" and hands the body on as data; the envelope is not read,
and `PlaceOrder` returns true with the rejection as its response. -/
theorem HandleResponse_accepts_error_envelope :
    HandleResponse ReqResult.Ok (some ⟨200, rejectionBody⟩) = ⟨true, "Success", rejectionBody⟩
      ∧ (HandleResponse ReqResult.Ok (some ⟨200, rejectionBody⟩)).message ≠ "insufficient funds"
      ∧ (PlaceOrder ⟨false, fun _ _ => true, "tok", "key", "secret", ⟨0⟩, 1000000000,
            1000000000, fun _ => Reply.fires 0 ReqResult.Ok (some ⟨200, rejectionBody⟩),
            HandleResponse, displayReturns, displayReturns, displayReturns⟩
          sampleOrder "buy" "").ret = Ret.returned true := by
  refine ⟨by decide, by decide, by decide⟩

/-- C5: for a transport result `Ok`, a non-null response with status `s` other than 200
and any body `b`, `HandleResponse` returns success false, the message "HTTP error: "
followed by the decimal digits of `s`, and data `b`. -/
theorem HandleResponse_http_error (s : Int) (b : String) (hStatus : s ≠ 200) :
    HandleResponse ReqResult.Ok (some ⟨s, b⟩) = ⟨false, "HTTP error: " ++ to_string s, b⟩ := by
  simp [HandleResponse, k200OK, hStatus]

theorem HandleResponse_http_error_witness :
    (503 : Int) ≠ 200
      ∧ HandleResponse ReqResult.Ok (some ⟨503, "Service Unavailable"⟩)
        = ⟨false, "HTTP error: 503", "Service Unavailable"⟩ :=
  ⟨by decide, HandleResponse_http_error 503 "Service Unavailable" (by decide)⟩

/-! ## Retry loop -/

theorem RetryRequest_loop_always_failing {σ : Type} (func : σ → Option (Bool × σ))
    (hFail : ∀ s, ∃ s1, func s = some (false, s1)) (remaining : Nat) :
    ∀ (i : Int) (s : σ), (RetryRequest.loop func remaining i s).result = some false
      ∧ (RetryRequest.loop func remaining i s).calls = remaining := by
  induction remaining with
  | zero =>
    intro i s
    exact ⟨rfl, rfl⟩
  | succ k ih =>
    intro i s
    obtain ⟨s1, hs1⟩ := hFail s
    have h := ih (i + 1) s1
    simp only [RetryResult.calls] at h ⊢
    simp only [RetryRequest.loop, hs1]
    refine ⟨h.1, ?_⟩
    simp [List.count_cons, h.2]

theorem RetryRequest_h_loop_always_failing {σ : Type} (func : σ → Option (Bool × σ))
    (hFail : ∀ s, ∃ s1, func s = some (false, s1)) (maxRetries : Int) (remaining : Nat) :
    ∀ (attempts : Int) (s : σ),
      (RetryRequest_h.loop func maxRetries remaining attempts s).result = some false
        ∧ (RetryRequest_h.loop func maxRetries remaining attempts s).calls = remaining := by
  induction remaining with
  | zero =>
    intro attempts s
    exact ⟨rfl, rfl⟩
  | succ k ih =>
    intro attempts s
    obtain ⟨s1, hs1⟩ := hFail s
    have h := ih (attempts + 1) s1
    simp only [RetryResult.calls] at h ⊢
    simp only [RetryRequest_h.loop, hs1]
    refine ⟨h.1, ?_⟩
    by_cases hlt : attempts + 1 < maxRetries
    · simp [hlt, List.count_cons, h.2]
    · simp [hlt, List.count_cons, h.2]

/-- C6: with the default budget of 3 and an attempt function that fails on its first two
calls and succeeds on its third, `RetryRequest` returns true after exactly three calls, and
the sleep before the third call is longer than the sleep before the second: 100 ms then
200 ms in `order_execution.cpp`, 200 ms then 400 ms in `order_execution.h`. -/
theorem RetryRequest_succeeds_on_third_attempt {σ : Type} (func : σ → Option (Bool × σ))
    (s0 s1 s2 s3 : σ) (h1 : func s0 = some (false, s1)) (h2 : func s1 = some (false, s2))
    (h3 : func s2 = some (true, s3)) :
    ((RetryRequest func defaultMaxRetries s0).result = some true
        ∧ (RetryRequest func defaultMaxRetries s0).calls = 3
        ∧ (RetryRequest func defaultMaxRetries s0).trace
          = [RetryEvent.attempt, RetryEvent.sleep 100, RetryEvent.attempt,
              RetryEvent.sleep 200, RetryEvent.attempt])
      ∧ ((RetryRequest_h func defaultMaxRetries s0).result = some true
        ∧ (RetryRequest_h func defaultMaxRetries s0).calls = 3
        ∧ (RetryRequest_h func defaultMaxRetries s0).trace
          = [RetryEvent.attempt, RetryEvent.sleep 200, RetryEvent.attempt,
              RetryEvent.sleep 400, RetryEvent.attempt]) := by
  have e3 : defaultMaxRetries.toNat = 3 := by decide
  have w1 : wrap32 (100 * ((0 : Int) + 1)) = 100 := by decide
  have w2 : wrap32 (100 * ((0 : Int) + 1 + 1)) = 200 := by decide
  have v1 : wrap32 (100 * wrap32 (2 ^ ((0 : Int) + 1).toNat)) = 200 := by decide
  have v2 : wrap32 (100 * wrap32 (2 ^ ((0 : Int) + 1 + 1).toNat)) = 400 := by decide
  have c1 : (0 : Int) + 1 < defaultMaxRetries := by decide
  have c2 : (0 : Int) + 1 + 1 < defaultMaxRetries := by decide
  refine ⟨?_, ?_⟩
  · simp only [RetryRequest, e3, RetryRequest.loop, h1, h2, h3, w1, w2, RetryResult.calls]
    exact ⟨trivial, by decide, trivial⟩
  · simp only [RetryRequest_h, e3, RetryRequest_h.loop, h1, h2, h3, v1, v2, c1, c2,
      RetryResult.calls, if_true]
    exact ⟨trivial, by decide, rfl⟩

theorem RetryRequest_succeeds_on_third_attempt_witness :
    (thirdTimeLucky 0 = some (false, 1) ∧ thirdTimeLucky 1 = some (false, 2)
        ∧ thirdTimeLucky 2 = some (true, 3))
      ∧ ((RetryRequest thirdTimeLucky defaultMaxRetries 0).result = some true
        ∧ (RetryRequest thirdTimeLucky defaultMaxRetries 0).calls = 3
        ∧ (RetryRequest thirdTimeLucky defaultMaxRetries 0).trace
          = [RetryEvent.attempt, RetryEvent.sleep 100, RetryEvent.attempt,
              RetryEvent.sleep 200, RetryEvent.attempt])
      ∧ ((RetryRequest_h thirdTimeLucky defaultMaxRetries 0).result = some true
        ∧ (RetryRequest_h thirdTimeLucky defaultMaxRetries 0).calls = 3
        ∧ (RetryRequest_h thirdTimeLucky defaultMaxRetries 0).trace
          = [RetryEvent.attempt, RetryEvent.sleep 200, RetryEvent.attempt,
              RetryEvent.sleep 400, RetryEvent.attempt]) :=
  ⟨by decide,
    RetryRequest_succeeds_on_third_attempt thirdTimeLucky 0 1 2 3 (by decide) (by decide)
      (by decide)⟩

/-- C7: for an attempt function that returns false on every call and a budget `n >= 0`,
`RetryRequest` (either body) returns false after calling it exactly `n` times. -/
theorem RetryRequest_exhausts_budget {σ : Type} (func : σ → Option (Bool × σ))
    (hFail : ∀ s, ∃ s1, func s = some (false, s1)) (n : Int) (hn : 0 ≤ n) (s : σ) :
    ((RetryRequest func n s).result = some false
        ∧ ((RetryRequest func n s).calls : Int) = n)
      ∧ ((RetryRequest_h func n s).result = some false
        ∧ ((RetryRequest_h func n s).calls : Int) = n) := by
  have hc := RetryRequest_loop_always_failing func hFail n.toNat 0 s
  have hh := RetryRequest_h_loop_always_failing func hFail n n.toNat 0 s
  have hcast : ((n.toNat : Nat) : Int) = n := Int.toNat_of_nonneg hn
  refine ⟨⟨hc.1, ?_⟩, ⟨hh.1, ?_⟩⟩
  · unfold RetryRequest
    rw [hc.2]
    exact hcast
  · unfold RetryRequest_h
    rw [hh.2]
    exact hcast

theorem RetryRequest_exhausts_budget_witness :
    (∀ s, ∃ s1, neverLucky s = some (false, s1)) ∧ (0 : Int) ≤ 3
      ∧ ((RetryRequest neverLucky 3 0).result = some false
        ∧ ((RetryRequest neverLucky 3 0).calls : Int) = 3)
      ∧ ((RetryRequest_h neverLucky 3 0).result = some false
        ∧ ((RetryRequest_h neverLucky 3 0).calls : Int) = 3) :=
  ⟨fun s => ⟨s + 1, rfl⟩, by decide,
    RetryRequest_exhausts_budget neverLucky (fun s => ⟨s + 1, rfl⟩) 3 (by decide) 0⟩

/-! ## Rate limiter -/

/-- C8: for two consecutive `WaitIfNeeded` calls on one limiter under a monotonic clock
whose sleeps last at least as long as asked, the instant the second call records in
`lastRequest` is at least 100 ms (100000000 ns) after the one the first call recorded, so
`lastRequest` did not decrease between them; the second call sleeps for what is missing
to 100 ms when it starts earlier than that; nor does the first call decrease `lastRequest`
when the instant it found there was not ahead of the clock. -/
theorem WaitIfNeeded_spacing (rl : RateLimiter) (now1 after1 now2 after2 : Int)
    (hFirst : clockOk rl now1 after1)
    (hSecond : clockOk (rl.WaitIfNeeded now1 after1).1 now2 after2) :
    (rl.WaitIfNeeded now1 after1).1.lastRequest + 100000000
        ≤ ((rl.WaitIfNeeded now1 after1).1.WaitIfNeeded now2 after2).1.lastRequest
      ∧ (rl.WaitIfNeeded now1 after1).1.lastRequest
        ≤ ((rl.WaitIfNeeded now1 after1).1.WaitIfNeeded now2 after2).1.lastRequest
      ∧ (rl.lastRequest ≤ now1 → rl.lastRequest ≤ (rl.WaitIfNeeded now1 after1).1.lastRequest)
      ∧ (now2 - (rl.WaitIfNeeded now1 after1).1.lastRequest < 100000000 →
        ((rl.WaitIfNeeded now1 after1).1.WaitIfNeeded now2 after2).2
          = some (100000000 - (now2 - (rl.WaitIfNeeded now1 after1).1.lastRequest))) := by
  unfold clockOk at hFirst hSecond
  simp only [RateLimiter.WaitIfNeeded, minInterval] at hFirst hSecond ⊢
  have hSleep := hSecond.1
  split at hSleep
  · rename_i hlt
    simp only [Option.getD_some] at hSleep
    refine ⟨by omega, by omega, fun h => by omega, fun _ => ?_⟩
    rw [if_pos hlt]
    norm_num
  · rename_i hge
    simp only [Option.getD_none] at hSleep
    refine ⟨by omega, by omega, fun h => by omega, fun h => ?_⟩
    exact absurd (by norm_num at hge ⊢; omega) hge

theorem WaitIfNeeded_spacing_witness :
    clockOk ⟨0⟩ 1000000000 1000000000
      ∧ clockOk ((⟨0⟩ : RateLimiter).WaitIfNeeded 1000000000 1000000000).1 1030000000 1100000000
      ∧ ((⟨0⟩ : RateLimiter).WaitIfNeeded 1000000000 1000000000).1.lastRequest + 100000000
        ≤ (((⟨0⟩ : RateLimiter).WaitIfNeeded 1000000000 1000000000).1.WaitIfNeeded
            1030000000 1100000000).1.lastRequest
      ∧ ((⟨0⟩ : RateLimiter).WaitIfNeeded 1000000000 1000000000).1.lastRequest
        ≤ (((⟨0⟩ : RateLimiter).WaitIfNeeded 1000000000 1000000000).1.WaitIfNeeded
            1030000000 1100000000).1.lastRequest
      ∧ ((⟨0⟩ : RateLimiter).lastRequest ≤ 1000000000 → (⟨0⟩ : RateLimiter).lastRequest
        ≤ ((⟨0⟩ : RateLimiter).WaitIfNeeded 1000000000 1000000000).1.lastRequest)
      ∧ (1030000000 - ((⟨0⟩ : RateLimiter).WaitIfNeeded 1000000000 1000000000).1.lastRequest
          < 100000000 →
        (((⟨0⟩ : RateLimiter).WaitIfNeeded 1000000000 1000000000).1.WaitIfNeeded
            1030000000 1100000000).2
          = some (100000000
              - (1030000000
                - ((⟨0⟩ : RateLimiter).WaitIfNeeded 1000000000 1000000000).1.lastRequest))) :=
  ⟨by decide, by decide,
    WaitIfNeeded_spacing ⟨0⟩ 1000000000 1000000000 1030000000 1100000000 (by decide)
      (by decide)⟩

/-! ## Dispatch -/

theorem requestsOf_append (a b : List Event) :
    requestsOf (a ++ b) = requestsOf a ++ requestsOf b := by
  simp [requestsOf, List.filterMap_append]

theorem requestsOf_retry_trace (trace : List RetryEvent) :
    requestsOf (trace.map RetryEvent.toEvent) = [] := by
  induction trace with
  | nil => rfl
  | cons e rest ih =>
    cases e with
    | attempt => simpa [requestsOf, RetryEvent.toEvent] using ih
    | sleep ms => simpa [requestsOf, RetryEvent.toEvent] using ih

theorem requestsOf_SendAsyncRequest (env : Env) (req : HttpRequest) :
    requestsOf (SendAsyncRequest env req).2 = [req] := by
  unfold SendAsyncRequest
  cases (env.m_rate_limiter.WaitIfNeeded env.now env.after).2 <;> simp [requestsOf]

theorem sendAndAwait_requests (env : Env) (req : HttpRequest)
    (callback : ReqResult → Option HttpResponse → Option Bool × String)
    (events : List Event) (response : String) :
    (sendAndAwait env req callback events response).requests = requestsOf events ++ [req] := by
  simp [sendAndAwait, OpResult.requests, requestsOf_append, requestsOf_retry_trace,
    requestsOf_SendAsyncRequest]

theorem utf8ByteSize_go_ge_length (cs : List Char) : cs.length ≤ String.utf8ByteSize.go cs := by
  induction cs with
  | nil => simp [String.utf8ByteSize.go]
  | cons c rest ih =>
    have hc := Char.utf8Size_pos c
    simp only [String.utf8ByteSize.go, List.length_cons]
    omega

theorem length_le_utf8ByteSize (s : String) : s.length ≤ s.utf8ByteSize :=
  utf8ByteSize_go_ge_length s.data

theorem placeOrderText_limit_buy (params : OrderParams)
    (hType : params.type_ = OrderType.LIMIT) :
    placeOrderText "/api/v2/private/buy" params = some (limitBuyPath params) := by
  have hb : c_str "/api/v2/private/buy" = "/api/v2/private/buy" := by decide
  have hl : c_str "limit" = "limit" := by decide
  simp only [placeOrderText, hType, limitBuyPath, GetOrderTypeString, hb, hl, if_true]
  have hj : "/api/v2/private/buy" ++ "?amount=" = "/api/v2/private/buy?amount=" := by decide
  have ht : "&type=" ++ "limit" = "&type=limit" := by decide
  rw [hj, String.append_assoc _ "&type=" "limit", ht]

theorem requestsOf_gate (env : Env) : requestsOf (RefreshTokenIfNeeded env).2 = [] := by
  unfold RefreshTokenIfNeeded requestsOf
  split
  · split <;> rfl
  · rfl

theorem limitBuyPath_longOrder : 2048 ≤ (limitBuyPath longOrder).utf8ByteSize := by
  have h := length_le_utf8ByteSize (limitBuyPath longOrder)
  have hp : (fun c : Char => c != Char.ofNat 0) (Char.ofNat 65) = true := by decide
  have hc : (c_str longOrder.instrument_name).length = 2048 := by
    show (String.mk ((List.replicate 2048 (Char.ofNat 65)).takeWhile
      (fun c : Char => c != Char.ofNat 0))).length = 2048
    rw [String.length_mk, List.takeWhile_replicate, if_pos hp, List.length_replicate]
  simp only [limitBuyPath, String.length_append, hc] at h
  simp only [limitBuyPath]
  omega

/-! ## End-to-end LIMIT buy -/

theorem snprintf_overflow_iff (text : String) :
    (snprintf text < 0 ∨ snprintf text ≥ BUFFER_SIZE) ↔ 2048 ≤ text.utf8ByteSize := by
  simp only [snprintf, BUFFER_SIZE, Int.ofNat_eq_coe]
  omega

theorem requestsOf_gate_token (env : Env) :
    requestsOf ((RefreshTokenIfNeeded env).2 ++ [Event.GetAccessToken]) = [] := by
  rw [requestsOf_append, requestsOf_gate]
  rfl

/-- `PlaceOrder` either returns false having sent nothing, or it passed validation and the
token gate, formatted a text shorter than 2048 bytes and ends in the shared tail on the
request with that text as path. -/
theorem PlaceOrder_cases (env : Env) (params : OrderParams) (side response : String) :
    (∃ events, requestsOf events = []
        ∧ PlaceOrder env params side response = returnFalse env events response)
      ∨ (∃ text, placeOrderText (placeOrderBase side) params = some text
        ∧ text.utf8ByteSize < 2048
        ∧ ValidateOrderParams params = true ∧ (RefreshTokenIfNeeded env).1 = true
        ∧ PlaceOrder env params side response
          = sendAndAwait env
              ⟨HttpMethod.Get, text,
                [("Authorization", "Bearer " ++ env.GetAccessToken),
                  ("Content-Type", "application/x-www-form-urlencoded")]⟩
              (onComplete HandleResponse id env.DisplayJsonResponse)
              ((RefreshTokenIfNeeded env).2 ++ [Event.GetAccessToken]) response) := by
  by_cases hv : ValidateOrderParams params = true
  · by_cases hg : (RefreshTokenIfNeeded env).1 = true
    · cases ht : placeOrderText (placeOrderBase side) params with
      | none =>
        refine Or.inl ⟨_, requestsOf_gate_token env, ?_⟩
        unfold placeOrderBase at ht
        simp [PlaceOrder, hv, hg, HttpRequest.newHttpRequest, HttpRequest.setPath,
          HttpRequest.setMethod, ht]
      | some text =>
        unfold placeOrderBase at ht
        by_cases hlen : 2048 ≤ text.utf8ByteSize
        · refine Or.inl ⟨_, requestsOf_gate_token env, ?_⟩
          have hw := (snprintf_overflow_iff text).2 hlen
          simp [PlaceOrder, hv, hg, HttpRequest.newHttpRequest, HttpRequest.setPath,
            HttpRequest.setMethod, ht, hw]
        · refine Or.inr ⟨text, rfl, by omega, hv, hg, ?_⟩
          have hw : ¬ (snprintf text < 0 ∨ snprintf text ≥ BUFFER_SIZE) :=
            fun h => hlen ((snprintf_overflow_iff text).1 h)
          simp [PlaceOrder, hv, hg, HttpRequest.newHttpRequest, HttpRequest.setPath,
            HttpRequest.setMethod, HttpRequest.addHeader, ht, hw]
    · refine Or.inl ⟨_, requestsOf_gate env, ?_⟩
      simp [PlaceOrder, hv, hg]
  · refine Or.inl ⟨[], rfl, ?_⟩
    simp [PlaceOrder, hv]

/-- `CancelOrder` either returns false having sent nothing, or the token gate passed, the
formatted text is shorter than 2048 bytes and the call ends in the shared tail. -/
theorem CancelOrder_cases (env : Env) (order_id response : String) :
    (∃ events, requestsOf events = []
        ∧ CancelOrder env order_id response = returnFalse env events response)
      ∨ ((cancelOrderText order_id).utf8ByteSize < 2048
        ∧ (RefreshTokenIfNeeded env).1 = true
        ∧ CancelOrder env order_id response
          = sendAndAwait env
              ⟨HttpMethod.Get, cancelOrderText order_id,
                [("Authorization", "Bearer " ++ env.GetAccessToken),
                  ("Content-Type", "application/json")]⟩
              (onComplete HandleResponse id env.DisplayJsonResponse)
              ((RefreshTokenIfNeeded env).2 ++ [Event.GetAccessToken]) response) := by
  by_cases hg : (RefreshTokenIfNeeded env).1 = true
  · by_cases hlen : 2048 ≤ (cancelOrderText order_id).utf8ByteSize
    · refine Or.inl ⟨_, requestsOf_gate env, ?_⟩
      have hw := (snprintf_overflow_iff (cancelOrderText order_id)).2 hlen
      unfold cancelOrderText at hw
      simp [CancelOrder, hg, hw]
    · refine Or.inr ⟨by omega, hg, ?_⟩
      have hw : ¬ (snprintf (cancelOrderText order_id) < 0
          ∨ snprintf (cancelOrderText order_id) ≥ BUFFER_SIZE) :=
        fun h => hlen ((snprintf_overflow_iff _).1 h)
      unfold cancelOrderText at hw ⊢
      simp [CancelOrder, hg, hw, HttpRequest.newHttpRequest, HttpRequest.setPath,
        HttpRequest.setMethod, HttpRequest.addHeader]
  · refine Or.inl ⟨_, requestsOf_gate env, ?_⟩
    simp [CancelOrder, hg]

/-- `ModifyOrder` either returns false having sent nothing, or the token gate and the
amount and price checks passed, the formatted text is shorter than 2048 bytes and the call
ends in the shared tail. -/
theorem ModifyOrder_cases (env : Env) (order_id : String) (new_amount new_price : Double)
    (response : String) :
    (∃ events, requestsOf events = []
        ∧ ModifyOrder env order_id new_amount new_price response
          = returnFalse env events response)
      ∨ ((modifyOrderText order_id new_amount new_price).utf8ByteSize < 2048
        ∧ (RefreshTokenIfNeeded env).1 = true
        ∧ new_amount.leZero = false ∧ new_price.leZero = false
        ∧ ModifyOrder env order_id new_amount new_price response
          = sendAndAwait env
              ⟨HttpMethod.Get, modifyOrderText order_id new_amount new_price,
                [("Authorization", "Bearer " ++ env.GetAccessToken),
                  ("Content-Type", "application/json")]⟩
              (onComplete HandleResponse id env.DisplayJsonResponse)
              ((RefreshTokenIfNeeded env).2 ++ [Event.GetAccessToken]) response) := by
  by_cases hg : (RefreshTokenIfNeeded env).1 = true
  · by_cases ha : new_amount.leZero = true
    · refine Or.inl ⟨_, requestsOf_gate env, ?_⟩
      simp [ModifyOrder, hg, ha]
    · by_cases hp : new_price.leZero = true
      · refine Or.inl ⟨_, requestsOf_gate env, ?_⟩
        simp [ModifyOrder, hg, hp]
      · simp only [Bool.not_eq_true] at ha hp
        by_cases hlen : 2048 ≤ (modifyOrderText order_id new_amount new_price).utf8ByteSize
        · refine Or.inl ⟨_, requestsOf_gate env, ?_⟩
          have hw := (snprintf_overflow_iff _).2 hlen
          unfold modifyOrderText at hw
          simp [ModifyOrder, hg, ha, hp, hw]
        · refine Or.inr ⟨by omega, hg, ha, hp, ?_⟩
          have hw : ¬ (snprintf (modifyOrderText order_id new_amount new_price) < 0
              ∨ snprintf (modifyOrderText order_id new_amount new_price) ≥ BUFFER_SIZE) :=
            fun h => hlen ((snprintf_overflow_iff _).1 h)
          unfold modifyOrderText at hw ⊢
          simp [ModifyOrder, hg, ha, hp, hw, HttpRequest.newHttpRequest,
            HttpRequest.setPath, HttpRequest.setMethod, HttpRequest.addHeader]
  · refine Or.inl ⟨_, requestsOf_gate env, ?_⟩
    simp [ModifyOrder, hg]

theorem returnFalse_nothing_sent (env : Env) (events : List Event) (response : String)
    (h : requestsOf events = []) :
    (returnFalse env events response).ret = Ret.returned false
      ∧ (returnFalse env events response).requests = [] :=
  ⟨rfl, h⟩

/-! ## First two rules of the classifier -/

/-- C16: `HandleResponse` applies its first two rules in order: a transport result other
than `Ok` gives `{false, "Network error", ""}` whatever the response object, its status and
its body are; with result `Ok` and a null response it gives `{false, "Empty response", ""}`. -/
theorem HandleResponse_first_two_rules (result : ReqResult) (response : Option HttpResponse) :
    (result ≠ ReqResult.Ok → HandleResponse result response = ⟨false, "Network error", ""⟩)
      ∧ (result = ReqResult.Ok → response = none →
        HandleResponse result response = ⟨false, "Empty response", ""⟩) := by
  refine ⟨fun h => ?_, fun h hn => ?_⟩
  · simp [HandleResponse, h]
  · simp [HandleResponse, h, hn]

theorem HandleResponse_first_two_rules_witness :
    (ReqResult.Timeout ≠ ReqResult.Ok
        ∧ HandleResponse ReqResult.Timeout (some ⟨200, "ok"⟩) = ⟨false, "Network error", ""⟩)
      ∧ (HandleResponse ReqResult.Ok none = ⟨false, "Empty response", ""⟩) :=
  ⟨⟨by decide,
      (HandleResponse_first_two_rules ReqResult.Timeout (some ⟨200, "ok"⟩)).1 (by decide)⟩,
    (HandleResponse_first_two_rules ReqResult.Ok none).2 rfl rfl⟩

/-! ## Length guard -/

/-- C15: in `PlaceOrder`, `CancelOrder` and `ModifyOrder`, a formatted path of 2048 bytes
or more (`BUFFER_SIZE`) makes the operation return false with no request sent; and every
request that is sent has the complete formatted text as its path. -/
theorem overlong_paths_are_not_dispatched (env : Env) (response : String) :
    (∀ params side text, placeOrderText (placeOrderBase side) params = some text →
        (2048 ≤ text.utf8ByteSize →
          (PlaceOrder env params side response).ret = Ret.returned false
            ∧ (PlaceOrder env params side response).requests = [])
          ∧ ∀ req ∈ (PlaceOrder env params side response).requests, req.path = text)
      ∧ (∀ order_id,
        (2048 ≤ (cancelOrderText order_id).utf8ByteSize →
          (CancelOrder env order_id response).ret = Ret.returned false
            ∧ (CancelOrder env order_id response).requests = [])
          ∧ ∀ req ∈ (CancelOrder env order_id response).requests,
              req.path = cancelOrderText order_id)
      ∧ (∀ order_id new_amount new_price,
        (2048 ≤ (modifyOrderText order_id new_amount new_price).utf8ByteSize →
          (ModifyOrder env order_id new_amount new_price response).ret = Ret.returned false
            ∧ (ModifyOrder env order_id new_amount new_price response).requests = [])
          ∧ ∀ req ∈ (ModifyOrder env order_id new_amount new_price response).requests,
              req.path = modifyOrderText order_id new_amount new_price) := by
  refine ⟨?_, ?_, ?_⟩
  · intro params side text ht
    rcases PlaceOrder_cases env params side response with ⟨ev, hev, h⟩ | ⟨t, ht2, hlt, _, _, h⟩
    · rw [h]
      refine ⟨fun _ => returnFalse_nothing_sent env ev response hev, ?_⟩
      intro req hreq
      rw [(returnFalse_nothing_sent env ev response hev).2] at hreq
      cases hreq
    · rw [ht] at ht2
      cases ht2
      rw [h]
      refine ⟨fun hge => absurd hge (by omega), ?_⟩
      intro req hreq
      rw [sendAndAwait_requests, requestsOf_gate_token] at hreq
      simp only [List.nil_append, List.mem_singleton] at hreq
      rw [hreq]
  · intro order_id
    rcases CancelOrder_cases env order_id response with ⟨ev, hev, h⟩ | ⟨hlt, _, h⟩
    · rw [h]
      refine ⟨fun _ => returnFalse_nothing_sent env ev response hev, ?_⟩
      intro req hreq
      rw [(returnFalse_nothing_sent env ev response hev).2] at hreq
      cases hreq
    · rw [h]
      refine ⟨fun hge => absurd hge (by omega), ?_⟩
      intro req hreq
      rw [sendAndAwait_requests, requestsOf_gate_token] at hreq
      simp only [List.nil_append, List.mem_singleton] at hreq
      rw [hreq]
  · intro order_id new_amount new_price
    rcases ModifyOrder_cases env order_id new_amount new_price response with
      ⟨ev, hev, h⟩ | ⟨hlt, _, _, _, h⟩
    · rw [h]
      refine ⟨fun _ => returnFalse_nothing_sent env ev response hev, ?_⟩
      intro req hreq
      rw [(returnFalse_nothing_sent env ev response hev).2] at hreq
      cases hreq
    · rw [h]
      refine ⟨fun hge => absurd hge (by omega), ?_⟩
      intro req hreq
      rw [sendAndAwait_requests, requestsOf_gate_token] at hreq
      simp only [List.nil_append, List.mem_singleton] at hreq
      rw [hreq]

theorem overlong_paths_are_not_dispatched_witness :
    placeOrderText (placeOrderBase "buy") longOrder = some (limitBuyPath longOrder)
      ∧ 2048 ≤ (limitBuyPath longOrder).utf8ByteSize
      ∧ (PlaceOrder sampleEnv longOrder "buy" "").ret = Ret.returned false
      ∧ (PlaceOrder sampleEnv longOrder "buy" "").requests = [] :=
  ⟨placeOrderText_limit_buy longOrder rfl, limitBuyPath_longOrder,
    ((overlong_paths_are_not_dispatched sampleEnv "").1 longOrder "buy"
      (limitBuyPath longOrder) (placeOrderText_limit_buy longOrder rfl)).1
      limitBuyPath_longOrder⟩

/-! ## One submission per call -/

theorem sendAndAwait_requests_length (env : Env) (req : HttpRequest)
    (callback : ReqResult → Option HttpResponse → Option Bool × String) (events : List Event)
    (response : String) (h : requestsOf events = []) :
    (sendAndAwait env req callback events response).requests.length = 1 := by
  rw [sendAndAwait_requests, h]
  rfl

theorem returnFalse_requests_length (env : Env) (events : List Event) (response : String)
    (h : requestsOf events = []) :
    (returnFalse env events response).requests.length ≤ 1 := by
  rw [(returnFalse_nothing_sent env events response h).2]
  exact Nat.zero_le 1

/-- C11: no operation hands more than one request to the transport, whatever the answer
is.  With a transport that reports a network failure for the request, `PlaceOrder` sends
it once, stores "Network error", waits, sleeps 100 ms and then waits again on the future
it has already read, so the call does not return true; with a transport whose callback
never runs it sends the request once and waits three times. -/
theorem operations_never_resubmit :
    (∀ env params side response, (PlaceOrder env params side response).requests.length ≤ 1)
      ∧ (∀ env order_id response, (CancelOrder env order_id response).requests.length ≤ 1)
      ∧ (∀ env order_id new_amount new_price response,
        (ModifyOrder env order_id new_amount new_price response).requests.length ≤ 1)
      ∧ (∀ env instrument_name response,
        (GetOrderBook env instrument_name response).requests.length ≤ 1)
      ∧ (∀ env currency kind response,
        (GetCurrentPositions env currency kind response).requests.length ≤ 1)
      ∧ (∀ env response, (GetOpenOrders env response).requests.length ≤ 1)
      ∧ (PlaceOrder networkErrorEnv sampleOrder "buy" "").events
        = [Event.IsAccessTokenExpired, Event.GetAccessToken,
            Event.sendRequest (limitBuyRequest "tok" sampleOrder), Event.wait_for,
            Event.sleep_for 100, Event.wait_for]
      ∧ (PlaceOrder networkErrorEnv sampleOrder "buy" "").ret = Ret.future_error
      ∧ (PlaceOrder networkErrorEnv sampleOrder "buy" "").response = "Network error"
      ∧ (PlaceOrder silentEnv sampleOrder "buy" "").events
        = [Event.IsAccessTokenExpired, Event.GetAccessToken,
            Event.sendRequest (limitBuyRequest "tok" sampleOrder), Event.wait_for,
            Event.sleep_for 100, Event.wait_for, Event.sleep_for 200, Event.wait_for,
            Event.sleep_for 300]
      ∧ (PlaceOrder silentEnv sampleOrder "buy" "").ret = Ret.returned false := by
  refine ⟨?_, ?_, ?_, ?_, ?_, ?_, by decide, by decide, by decide, by decide, by decide⟩
  · intro env params side response
    rcases PlaceOrder_cases env params side response with ⟨ev, hev, h⟩ | ⟨t, _, _, _, _, h⟩
    · rw [h]
      exact returnFalse_requests_length env ev response hev
    · rw [h, sendAndAwait_requests_length _ _ _ _ _ (requestsOf_gate_token env)]
  · intro env order_id response
    rcases CancelOrder_cases env order_id response with ⟨ev, hev, h⟩ | ⟨_, _, h⟩
    · rw [h]
      exact returnFalse_requests_length env ev response hev
    · rw [h, sendAndAwait_requests_length _ _ _ _ _ (requestsOf_gate_token env)]
  · intro env order_id new_amount new_price response
    rcases ModifyOrder_cases env order_id new_amount new_price response with
      ⟨ev, hev, h⟩ | ⟨_, _, _, _, h⟩
    · rw [h]
      exact returnFalse_requests_length env ev response hev
    · rw [h, sendAndAwait_requests_length _ _ _ _ _ (requestsOf_gate_token env)]
  · intro env instrument_name response
    unfold GetOrderBook
    split
    · exact returnFalse_requests_length env [] response rfl
    · simp only []
      rw [sendAndAwait_requests_length env _ _ [] response rfl]
  · intro env currency kind response
    unfold GetCurrentPositions
    simp only []
    split
    · exact returnFalse_requests_length env _ response (requestsOf_gate env)
    · rw [sendAndAwait_requests_length _ _ _ _ _ (requestsOf_gate_token env)]
  · intro env response
    unfold GetOpenOrders
    simp only []
    split
    · exact returnFalse_requests_length env _ response (requestsOf_gate env)
    · rw [sendAndAwait_requests_length _ _ _ _ _ (requestsOf_gate_token env)]

/-! ## Backoff -/

theorem RetryRequest_loop_sleeps {σ : Type} (func : σ → Option (Bool × σ))
    (hFail : ∀ s, ∃ s1, func s = some (false, s1)) (remaining : Nat) :
    ∀ (i : Int) (s : σ), (RetryRequest.loop func remaining i s).sleeps
      = (List.range remaining).map (fun (k : Nat) => wrap32 (100 * (i + (k : Int) + 1))) := by
  induction remaining with
  | zero =>
    intro i s
    rfl
  | succ n ih =>
    intro i s
    obtain ⟨s1, hs1⟩ := hFail s
    have h := ih (i + 1) s1
    simp only [RetryResult.sleeps] at h ⊢
    simp only [RetryRequest.loop, hs1, List.filterMap_cons, h, List.range_succ_eq_map,
      List.map_cons, List.map_map]
    congr 1
    · simp
    · apply List.map_congr_left
      intro k _
      simp only [Function.comp, Nat.succ_eq_add_one, Nat.cast_add, Nat.cast_one]
      congr 2
      omega

theorem RetryRequest_h_loop_sleeps {σ : Type} (func : σ → Option (Bool × σ))
    (hFail : ∀ s, ∃ s1, func s = some (false, s1)) (maxRetries : Int) (remaining : Nat) :
    ∀ (attempts : Int) (s : σ), attempts + (remaining : Int) = maxRetries →
      (RetryRequest_h.loop func maxRetries remaining attempts s).sleeps
        = (List.range (remaining - 1)).map
            (fun (k : Nat) => wrap32 (100 * wrap32 (2 ^ (attempts + (k : Int) + 1).toNat))) := by
  induction remaining with
  | zero =>
    intro attempts s _
    rfl
  | succ n ih =>
    intro attempts s hsum
    obtain ⟨s1, hs1⟩ := hFail s
    have h := ih (attempts + 1) s1 (by push_cast at hsum ⊢; omega)
    simp only [RetryResult.sleeps] at h ⊢
    simp only [RetryRequest_h.loop, hs1, List.filterMap_cons, List.filterMap_append, h]
    cases n with
    | zero =>
      have hlt : ¬ attempts + 1 < maxRetries := by push_cast at hsum; omega
      simp [hlt]
    | succ m =>
      have hlt : attempts + 1 < maxRetries := by push_cast at hsum; omega
      simp only [hlt, if_true, List.filterMap_cons, List.filterMap_nil, List.singleton_append,
        Nat.add_sub_cancel, List.range_succ_eq_map, List.map_cons, List.map_map]
      congr 1
      · simp
      · apply List.map_congr_left
        intro k _
        simp only [Function.comp, Nat.succ_eq_add_one, Nat.cast_add, Nat.cast_one]
        congr 4
        omega

/-- C12: with an attempt function that always fails, the `RetryRequest` of
`order_execution.cpp` sleeps `100 * (k + 1)` ms after the attempt with index `k`, after
the last attempt of the budget too: 100, 200, 300 for a budget of 3 and 100, 200, 300, 400
for a budget of 4, which is `base * 2^k` for no base.  The `RetryRequest` of
`order_execution.h` sleeps `100 * 2^(k+1)` ms and not after the last attempt: 200, 400 for
a budget of 3 and 200, 400, 800 for a budget of 4. -/
theorem RetryRequest_backoff_bodies_differ :
    (∀ n : Int, (RetryRequest neverLucky n 0).sleeps
        = (List.range n.toNat).map (fun (k : Nat) => wrap32 (100 * ((k : Int) + 1))))
      ∧ (RetryRequest neverLucky 3 0).trace
        = [RetryEvent.attempt, RetryEvent.sleep 100, RetryEvent.attempt,
            RetryEvent.sleep 200, RetryEvent.attempt, RetryEvent.sleep 300]
      ∧ (RetryRequest neverLucky 4 0).sleeps = [100, 200, 300, 400]
      ∧ (¬ ∃ base : Int, (RetryRequest neverLucky 4 0).sleeps.take 3
          = [base * 2 ^ 0, base * 2 ^ 1, base * 2 ^ 2])
      ∧ (∀ n : Int, (RetryRequest_h neverLucky n 0).sleeps
        = (List.range (n.toNat - 1)).map
            (fun (k : Nat) => wrap32 (100 * wrap32 (2 ^ ((k : Int) + 1).toNat))))
      ∧ (RetryRequest_h neverLucky 3 0).trace
        = [RetryEvent.attempt, RetryEvent.sleep 200, RetryEvent.attempt,
            RetryEvent.sleep 400, RetryEvent.attempt]
      ∧ (RetryRequest_h neverLucky 4 0).sleeps = [200 * 2 ^ 0, 200 * 2 ^ 1, 200 * 2 ^ 2] := by
  have hFail : ∀ s, ∃ s1, neverLucky s = some (false, s1) := fun s => ⟨s + 1, rfl⟩
  refine ⟨?_, by decide, by decide, ?_, ?_, by decide, by decide⟩
  · intro n
    have h := RetryRequest_loop_sleeps neverLucky hFail n.toNat 0 0
    simpa [RetryRequest] using h
  · rintro ⟨base, h⟩
    have hs : (RetryRequest neverLucky 4 0).sleeps.take 3 = [100, 200, 300] := by decide
    rw [hs] at h
    simp only [List.cons.injEq, and_true] at h
    omega
  · intro n
    by_cases hn : 0 ≤ n
    · have h := RetryRequest_h_loop_sleeps neverLucky hFail n n.toNat 0 0
        (by rw [Int.toNat_of_nonneg hn]; ring)
      simpa [RetryRequest_h] using h
    · have hz : n.toNat = 0 := by
        rw [Int.toNat_eq_zero]
        omega
      simp [RetryRequest_h, hz, RetryRequest_h.loop, RetryResult.sleeps]

/-! ## Order of validation and token check -/

/-- C13: with an expired token, `ModifyOrder` with amount 0 and `GetCurrentPositions` with
an empty currency ask the token manager for a refresh before they return false (nothing is
sent), whereas `PlaceOrder` with amount 0 or with a LIMIT price of 0 returns false without
any call to the token manager. -/
theorem ModifyOrder_refreshes_before_validating :
    (∀ order_id new_price response,
        (ModifyOrder refreshedEnv order_id zero new_price response).events
            = [Event.IsAccessTokenExpired, Event.RefreshAccessToken "key" "secret"]
          ∧ (ModifyOrder refreshedEnv order_id zero new_price response).refreshes
            = [("key", "secret")]
          ∧ (ModifyOrder refreshedEnv order_id zero new_price response).ret
            = Ret.returned false)
      ∧ (∀ kind response,
        (GetCurrentPositions refreshedEnv "" kind response).events
            = [Event.IsAccessTokenExpired, Event.RefreshAccessToken "key" "secret"]
          ∧ (GetCurrentPositions refreshedEnv "" kind response).refreshes
            = [("key", "secret")]
          ∧ (GetCurrentPositions refreshedEnv "" kind response).ret = Ret.returned false)
      ∧ (∀ env side response,
        (PlaceOrder env zeroAmountOrder side response).events = []
          ∧ (PlaceOrder env zeroPriceOrder side response).events = []) := by
  refine ⟨?_, ?_, ?_⟩
  · intro order_id new_price response
    exact ⟨rfl, rfl, rfl⟩
  · intro kind response
    exact ⟨rfl, rfl, rfl⟩
  · intro env side response
    exact ⟨rfl, rfl⟩

/-! ## Empty order id -/

/-- C14: with a fresh token and a transport that answers HTTP 200, `CancelOrder` with an
empty order id sends `/api/v2/private/cancel?order_id=` and returns true, and `ModifyOrder`
with an empty order id, amount 1.0 and price 3000.00 sends
`/api/v2/private/edit?order_id=&amount=1.000000&price=3000.00` and returns true; whereas
`GetOrderBook` with an empty instrument name and `GetCurrentPositions` with an empty
currency return false and send nothing, as `ModifyOrder` does for an amount of 0. -/
theorem empty_order_id_is_sent :
    sampleEnv.IsAccessTokenExpired = false
      ∧ (CancelOrder sampleEnv "" "").requests
        = [⟨HttpMethod.Get, "/api/v2/private/cancel?order_id=",
            [("Authorization", "Bearer tok"), ("Content-Type", "application/json")]⟩]
      ∧ (CancelOrder sampleEnv "" "").ret = Ret.returned true
      ∧ (one.gtZero = true ∧ threeThousand.gtZero = true)
      ∧ (ModifyOrder sampleEnv "" one threeThousand "").requests
        = [⟨HttpMethod.Get, "/api/v2/private/edit?order_id=&amount=1.000000&price=3000.00",
            [("Authorization", "Bearer tok"), ("Content-Type", "application/json")]⟩]
      ∧ (ModifyOrder sampleEnv "" one threeThousand "").ret = Ret.returned true
      ∧ ((GetOrderBook sampleEnv "" "").ret = Ret.returned false
        ∧ (GetOrderBook sampleEnv "" "").requests = [])
      ∧ ((GetCurrentPositions sampleEnv "" "future" "").ret = Ret.returned false
        ∧ (GetCurrentPositions sampleEnv "" "future" "").requests = [])
      ∧ ((ModifyOrder sampleEnv "" zero threeThousand "").ret = Ret.returned false
        ∧ (ModifyOrder sampleEnv "" zero threeThousand "").requests = []) := by
  refine ⟨by decide, by decide, by decide, by decide, by decide, by decide, by decide,
    by decide, by decide⟩

/-! ## Ampersands in formatted text -/

theorem digitChar_ne_ampersand (n : Nat) : Nat.digitChar (n % 10) ≠ '&' := by
  have h : n % 10 < 10 := Nat.mod_lt n (by decide)
  generalize n % 10 = m at h
  interval_cases m <;> decide

theorem toDigitsCore_no_ampersand (fuel : Nat) :
    ∀ (n : Nat) (ds : List Char), '&' ∉ ds → '&' ∉ Nat.toDigitsCore 10 fuel n ds := by
  induction fuel with
  | zero =>
    intro n ds h
    simpa [Nat.toDigitsCore] using h
  | succ f ih =>
    intro n ds h
    have hd : '&' ∉ Nat.digitChar (n % 10) :: ds := by
      simp only [List.mem_cons, not_or]
      exact ⟨fun e => digitChar_ne_ampersand _ e.symm, h⟩
    simp only [Nat.toDigitsCore]
    split
    · exact hd
    · exact ih _ _ hd

theorem repr_no_ampersand (n : Nat) : '&' ∉ (Nat.repr n).data :=
  toDigitsCore_no_ampersand (n + 1) n [] (List.not_mem_nil _)

theorem padDigits_no_ampersand (width n : Nat) : '&' ∉ (padDigits width n).data := by
  simp only [padDigits, String.data_append, List.mem_append, not_or]
  refine ⟨?_, repr_no_ampersand n⟩
  intro h
  have := List.eq_of_mem_replicate h
  exact absurd this (by decide)

theorem fmtFixed_no_ampersand (prec : Nat) (d : Double) : noAmpersand (fmtFixed prec d) := by
  unfold noAmpersand
  cases d with
  | nan =>
    simp only [fmtFixed]
    decide
  | inf neg =>
    cases neg <;> simp only [fmtFixed] <;> decide
  | finite neg mant exp =>
    simp only [fmtFixed, String.data_append, List.mem_append, not_or]
    refine ⟨⟨?_, repr_no_ampersand _⟩, ?_⟩
    · cases neg <;> decide
    · split
      · decide
      · simp only [String.data_append, List.mem_append, not_or]
        exact ⟨by decide, padDigits_no_ampersand _ _⟩

theorem c_str_no_ampersand (s : String) (h : noAmpersand s) : noAmpersand (c_str s) := by
  unfold noAmpersand c_str at *
  intro hm
  exact h (List.takeWhile_subset _ hm)

theorem price_infix_skip (xs ys : List Char) (hno : '&' ∉ xs)
    (h : List.IsInfix "&price=".data (xs ++ ys)) : List.IsInfix "&price=".data ys := by
  induction xs with
  | nil => simpa using h
  | cons x rest ih =>
    simp only [List.mem_cons, not_or] at hno
    rw [List.cons_append, List.infix_cons_iff] at h
    rcases h with hp | hi
    · exfalso
      have hx : "&price=".data = '&' :: "price=".data := rfl
      rw [hx, List.cons_prefix_cons] at hp
      exact hno.1 hp.1
    · exact ih hno.2 hi

theorem price_infix_segment (t0 : Char) (tail ys : List Char) (h0 : t0 ≠ 'p')
    (hno : '&' ∉ t0 :: tail)
    (h : List.IsInfix "&price=".data ('&' :: (t0 :: tail ++ ys))) :
    List.IsInfix "&price=".data ys := by
  rw [List.infix_cons_iff] at h
  rcases h with hp | hi
  · exfalso
    have hx : "&price=".data = '&' :: 'p' :: "rice=".data := rfl
    rw [hx, List.cons_prefix_cons, List.cons_append, List.cons_prefix_cons] at hp
    exact h0 hp.2.1.symm
  · exact price_infix_skip (t0 :: tail) ys hno hi

theorem placeOrderBase_no_ampersand (side : String) :
    noAmpersand (c_str (placeOrderBase side)) := by
  unfold placeOrderBase
  split <;> decide

theorem market_text_has_no_price (base : String) (params : OrderParams)
    (hBase : noAmpersand (c_str base)) (hInstrument : noAmpersand params.instrument_name)
    (hLabel : noAmpersand params.label) :
    ¬ hasPriceParam (c_str base ++ "?amount=" ++ fmtFixed 6 params.amount
      ++ "&instrument_name=" ++ c_str params.instrument_name
      ++ "&label=" ++ c_str params.label
      ++ "&type=" ++ c_str (GetOrderTypeString OrderType.MARKET)) := by
  unfold hasPriceParam
  intro h
  simp only [String.data_append, List.append_assoc] at h
  have h1 := price_infix_skip _ _ hBase h
  have h2 := price_infix_skip "?amount=".data _ (by decide) h1
  have h3 := price_infix_skip _ _ (fmtFixed_no_ampersand 6 params.amount) h2
  have h4 := price_infix_segment 'i' "nstrument_name=".data _ (by decide) (by decide) h3
  have h5 := price_infix_skip _ _ (c_str_no_ampersand _ hInstrument) h4
  have h6 := price_infix_segment 'l' "abel=".data _ (by decide) (by decide) h5
  have h7 := price_infix_skip _ _ (c_str_no_ampersand _ hLabel) h6
  have h8 := price_infix_segment 't' "ype=".data _ (by decide) (by decide) h7
  exact absurd h8 (by decide)

theorem limit_text_has_price (base : String) (params : OrderParams) :
    hasPriceParam (c_str base ++ "?amount=" ++ fmtFixed 6 params.amount
      ++ "&instrument_name=" ++ c_str params.instrument_name
      ++ "&label=" ++ c_str params.label
      ++ "&price=" ++ fmtFixed 2 params.price
      ++ "&type=" ++ c_str (GetOrderTypeString OrderType.LIMIT)) := by
  unfold hasPriceParam
  refine ⟨(c_str base ++ "?amount=" ++ fmtFixed 6 params.amount
      ++ "&instrument_name=" ++ c_str params.instrument_name
      ++ "&label=" ++ c_str params.label).data,
    (fmtFixed 2 params.price ++ "&type=" ++ c_str (GetOrderTypeString OrderType.LIMIT)).data,
    ?_⟩
  simp only [String.data_append, List.append_assoc]

theorem placeOrderText_some_type (base : String) (params : OrderParams) (text : String)
    (h : placeOrderText base params = some text) :
    params.type_ = OrderType.LIMIT ∨ params.type_ = OrderType.MARKET := by
  unfold placeOrderText at h
  by_cases hl : params.type_ = OrderType.LIMIT
  · exact Or.inl hl
  · by_cases hm : params.type_ = OrderType.MARKET
    · exact Or.inr hm
    · simp [hl, hm] at h

/-! ## Order types -/

/-- C17 as stated fails in its last part: for a MARKET order whose label is `x&price=1`,
with amount 1.0, a fresh token and a transport that answers HTTP 200, `PlaceOrder` sends a
request whose query holds a price parameter. -/
theorem market_order_can_carry_price_parameter :
    (injectedMarketOrder.type_ = OrderType.MARKET
        ∧ injectedMarketOrder.type_ ≠ OrderType.LIMIT
        ∧ injectedMarketOrder.amount.gtZero = true
        ∧ sampleEnv.IsAccessTokenExpired = false)
      ∧ (PlaceOrder sampleEnv injectedMarketOrder "buy" "").requests.map HttpRequest.path
        = ["/api/v2/private/buy?amount=1.000000&instrument_name=ETH-PERPETUAL&label=x&price=1&type=market"]
      ∧ (∀ req ∈ (PlaceOrder sampleEnv injectedMarketOrder "buy" "").requests,
          hasPriceParam req.path)
      ∧ ¬ (∀ req ∈ (PlaceOrder sampleEnv injectedMarketOrder "buy" "").requests,
          (hasPriceParam req.path ↔ injectedMarketOrder.type_ = OrderType.LIMIT)) := by
  refine ⟨by decide, by decide, by decide, by decide⟩

/-- C17, amended: for every order of type STOP_LIMIT or STOP_MARKET, whatever the amount
and the token state, `PlaceOrder` returns false and sends no request; a request is only
ever sent for a LIMIT or a MARKET order; and when neither the instrument name nor the
label holds an ampersand, the query of the request sent has a price parameter if and only
if the type is LIMIT. -/
theorem PlaceOrder_order_types (env : Env) (params : OrderParams) (side response : String) :
    ((params.type_ = OrderType.STOP_LIMIT ∨ params.type_ = OrderType.STOP_MARKET) →
        (PlaceOrder env params side response).ret = Ret.returned false
          ∧ (PlaceOrder env params side response).requests = [])
      ∧ ((PlaceOrder env params side response).requests ≠ [] →
        params.type_ = OrderType.LIMIT ∨ params.type_ = OrderType.MARKET)
      ∧ (noAmpersand params.instrument_name → noAmpersand params.label →
        ∀ req ∈ (PlaceOrder env params side response).requests,
          (hasPriceParam req.path ↔ params.type_ = OrderType.LIMIT)) := by
  rcases PlaceOrder_cases env params side response with ⟨ev, hev, h⟩ | ⟨text, ht, _, _, _, h⟩
  · have hn := returnFalse_nothing_sent env ev response hev
    rw [h]
    refine ⟨fun _ => hn, fun hne => absurd hn.2 hne, ?_⟩
    intro _ _ req hreq
    rw [hn.2] at hreq
    cases hreq
  · have hty := placeOrderText_some_type _ _ _ ht
    have hreqs : (PlaceOrder env params side response).requests
        = [⟨HttpMethod.Get, text,
            [("Authorization", "Bearer " ++ env.GetAccessToken),
              ("Content-Type", "application/x-www-form-urlencoded")]⟩] := by
      rw [h, sendAndAwait_requests, requestsOf_gate_token]
      rfl
    refine ⟨?_, fun _ => hty, ?_⟩
    · intro hstop
      exfalso
      rcases hstop with hs | hs <;> rcases hty with hl | hm <;> simp_all
    · intro hInstrument hLabel req hreq
      rw [hreqs, List.mem_singleton] at hreq
      subst hreq
      show hasPriceParam text ↔ params.type_ = OrderType.LIMIT
      rcases hty with hl | hm
      · simp only [placeOrderText, hl, if_true, Option.some.injEq] at ht
        rw [← ht]
        exact ⟨fun _ => hl, fun _ => limit_text_has_price _ params⟩
      · have hnl : params.type_ ≠ OrderType.LIMIT := by
          rw [hm]
          decide
        have hml : ¬ (OrderType.MARKET = OrderType.LIMIT) := by decide
        simp only [placeOrderText, hm, hml, if_true, if_false, Option.some.injEq] at ht
        rw [← ht]
        exact ⟨fun hp => absurd hp (market_text_has_no_price _ params
            (placeOrderBase_no_ampersand side) hInstrument hLabel),
          fun hl => absurd hl hnl⟩

theorem PlaceOrder_order_types_witness :
    ((stopLimitOrder.type_ = OrderType.STOP_LIMIT ∨ stopLimitOrder.type_ = OrderType.STOP_MARKET)
        ∧ (PlaceOrder sampleEnv stopLimitOrder "buy" "").ret = Ret.returned false
        ∧ (PlaceOrder sampleEnv stopLimitOrder "buy" "").requests = [])
      ∧ (noAmpersand marketOrder.instrument_name ∧ noAmpersand marketOrder.label
        ∧ (PlaceOrder sampleEnv marketOrder "buy" "").requests ≠ []
        ∧ ∀ req ∈ (PlaceOrder sampleEnv marketOrder "buy" "").requests,
            (hasPriceParam req.path ↔ marketOrder.type_ = OrderType.LIMIT)) :=
  ⟨⟨by decide,
      (PlaceOrder_order_types sampleEnv stopLimitOrder "buy" "").1 (by decide)⟩,
    by decide, by decide, by decide,
    (PlaceOrder_order_types sampleEnv marketOrder "buy" "").2.2 (by decide) (by decide)⟩

/-! ## Timeouts -/

end OEMS
